import Mathlib

/-!
Shallow embedding of the caching / pagination core of the `fastapi-infra-kit`
event-ingestion service (`app/services/redis_service.py`, `app/services/deps.py`,
`app/services/bucket_service.py`, `app/api/v1/http/bucket.py`,
`app/exceptions/sqlalchemy_exception_handler.py`), together with theorems
settling the specification's claims about it.

Conventions of the embedding:
* Python coroutines are sequential functions here; the only interleaving a claim
  needs (the unique-name create race) is made explicit as a parameter.
* Uncaught Python exceptions are `Except` errors; the error type mirrors the
  exception taxonomy of `app/exceptions/api_exceptions.py`.
* Timestamps, ids and cursor keys are `Nat` (UUIDs and datetimes are opaque,
  totally ordered identifiers as far as this code is concerned).
* The Redis keyspace is an association list from key strings to stored payloads;
  TTLs only govern expiry, and no claim involves the passage of time, so the
  `ttl` argument of `setex` is not represented.
-/

set_option autoImplicit false

namespace InfraKit

/-- JSON payloads, the serialization format of every cache entry
(`decode_responses=True`, `json` serializer at every `redis_cache` call site).
A stored entry is the `json.dumps` image of such a value; since `json.loads`
inverts `json.dumps` on well-formed documents, the cache is modelled as holding
the parsed value. -/
inductive Json where
  | null
  | bool (b : Bool)
  | num (n : Int)
  | str (s : String)
  | arr (elems : List Json)
  | obj (fields : List (String × Json))

/-- The Redis keyspace: one value per key string. -/
abbrev CacheMap := List (String × Json)

/-- `await redis.get(key)` on a reachable server. -/
def lookupKey (c : CacheMap) (k : String) : Option Json :=
  (c.find? (fun kv => kv.1 == k)).map (fun kv => kv.2)

/-- `await redis.setex(key, ttl, value)`: bind `k` to `v`, replacing any
previous binding (TTL not represented, see the header). -/
def setKey (c : CacheMap) (k : String) (v : Json) : CacheMap :=
  (k, v) :: c.filter (fun kv => kv.1 != k)

/-- `await redis.delete(key)`. -/
def eraseKey (c : CacheMap) (k : String) : CacheMap :=
  c.filter (fun kv => kv.1 != k)

/-- Byte-wise prefix test on strings (Python `startswith` semantics). -/
def strHasPre (p s : String) : Bool :=
  p.data.isPrefixOf s.data

/-- The recursive branch of `invalidate_cache`:
`async for key in redis.scan_iter(match=cache_key + "*"): await redis.delete(key)`.
Every pattern this repository builds is a literal followed by one trailing `*`
(the only interpolated fragment, a bucket name, is pre-validated to
`[A-Za-z0-9_-]`, which has no glob metacharacter), and Redis `MATCH` for such a
pattern selects exactly the keys extending the literal. -/
def scanDeleteStar (cacheKey : String) (c : CacheMap) : CacheMap :=
  c.filter (fun kv => !(strHasPre cacheKey kv.1))

/-- The HTTP-level error taxonomy (`app/exceptions/api_exceptions.py` plus the
errors FastAPI produces for uncaught exceptions). -/
inductive ApiError where
  /-- `NotFoundException(resource)`: 404, detail `resource ++ " not found"`. -/
  | notFound (resource : String)
  /-- `AlreadyExistsException(resource)`: 409, detail `resource ++ " already exists"`. -/
  | alreadyExists (resource : String)
  /-- `UnprocessableEntityException(message)`: 422.
  Modelled from the spec: the class is imported by `app/services/deps.py` from
  `app.exceptions.api_exceptions` but absent from that module in `src/`; per the
  spec it carries the given message with status 422. -/
  | unprocessable (message : String)
  /-- An uncaught `redis` `ConnectionError` escaping a handler (becomes a 500). -/
  | cacheConnection
  /-- `HTTPException(500, ...)` from the catch-all handler. -/
  | internal (message : String)
deriving DecidableEq, Repr

/-- The Redis dependency, as a handler observes it. -/
inductive Redis where
  /-- `kwargs.get("redis")` is falsy: both decorators skip straight to the
  wrapped function. -/
  | absent
  /-- A reachable server with the given keyspace. -/
  | conn (c : CacheMap)
  /-- An unreachable server: every awaited command raises `ConnectionError`. -/
  | down

/-- A pydantic response model as the two decorators see it:
`dump` is `result.model_dump_json()` (composed with `json.dumps`), `validate`
is `return_type.model_validate(json.loads(...))`, returning `none` where
pydantic would raise a `ValidationError`. Every return annotation at a
`redis_cache` call site is a pydantic model, so the `hasattr` branches of the
decorator always take the model path. -/
structure PyModel (α : Type) where
  dump : α → Json
  validate : Json → Option α

/-- The wrapper produced by `redis_cache(key_template, ttl)` applied to one
call (`app/services/redis_service.py`, lines 35-66), with the key template
already formatted. `func` is the value/exception of `await func(*args, **kwargs)`
(a read: it never mutates the store). Besides the call's outcome and the
resulting Redis state, the number of times the wrapped function was awaited is
returned, mirroring lines 38 and 53. The `serializer` argument is `"json"` at
every call site, so only that branch is embedded. -/
def redis_cache {α : Type} (model : PyModel α) (cacheKey : String)
    (func : Except ApiError α) : Redis → Except ApiError α × Redis × Nat
  | .absent => (func, .absent, 1)
  | .down => (.error .cacheConnection, .down, 0)
  | .conn c =>
    match lookupKey c cacheKey with
    | some v =>
      -- cache hit: stored payloads are nonempty strings, hence truthy
      match model.validate v with
      | some x => (.ok x, .conn c, 0)
      | none => (.error (.internal "Something went wrong, please contact support."), .conn c, 0)
    | none =>
      match func with
      | .ok r => (.ok r, .conn (setKey c cacheKey (model.dump r)), 1)
      | .error e => (.error e, .conn c, 1)

/-- A persisted event row (`app/models/event.py`). -/
structure EventRec where
  id : Nat
  title : String
  message : String
  createdAt : Nat
deriving DecidableEq, Repr

/-- A persisted bucket row with its owned events (`app/models/bucket.py`).
`updatedAt` is the column `BucketResponse` and the `order_by` in
`get_all_buckets` read (the ORM model leaves its declaration to the base
mixin). -/
structure BucketRec where
  id : Nat
  name : String
  createdAt : Nat
  updatedAt : Nat
  events : List EventRec
deriving DecidableEq, Repr

/-- The relational store: the bucket table (events owned inline). -/
abbrev Store := List BucketRec

/-- The wrapper produced by `invalidate_cache(key_template, event, recursive)`
applied to one call (`app/services/redis_service.py`, lines 89-109), key
template already formatted. `func` is the wrapped write (or a further
invalidation wrapper); it receives the store and the Redis state and returns
its outcome together with both (the store and keyspace persist across an
exception: they live on external servers). -/
def invalidate_cache {β : Type} (cacheKey : String) (recursive : Bool)
    (func : Store → Redis → Except ApiError β × Store × Redis)
    (store : Store) : Redis → Except ApiError β × Store × Redis
  | .absent => func store .absent
  | .down => (.error .cacheConnection, store, .down)
  | .conn c =>
    let c' := if recursive then scanDeleteStar cacheKey c else eraseKey c cacheKey
    func store (.conn c')

/-! ### Response schemas and their JSON serialization -/

/-- `BucketResponse` (`app/schemas/bucket.py`): the bucket fields a page of
`fetch_buckets` carries (the optional `deleted_at` is always absent in this
scope and not represented). -/
structure BucketOut where
  id : Nat
  name : String
  createdAt : Nat
  updatedAt : Nat
deriving DecidableEq, Repr

/-- Project a bucket row onto its response schema. -/
def bucketOut (b : BucketRec) : BucketOut :=
  ⟨b.id, b.name, b.createdAt, b.updatedAt⟩

/-- `CursorPage[BucketResponse]`: the items of the page plus the opaque cursor
for the next page. The cursor token is modelled by the sort key it encodes
(see `keysetPage`); the auxiliary bookkeeping fields of the pydantic page
(`previous_page`, `current_page`, ...) play no part in any claim. -/
structure BucketPage where
  items : List BucketOut
  nextCursor : Option Nat
deriving DecidableEq, Repr

/-- `BucketResponse.model_dump_json`, composed with `json.loads`. -/
def bucketToJson (b : BucketOut) : Json :=
  .obj [("id", .num b.id), ("name", .str b.name),
        ("created_at", .num b.createdAt), ("updated_at", .num b.updatedAt)]

/-- `BucketResponse.model_validate` on a parsed document. -/
def bucketFromJson : Json → Option BucketOut
  | .obj [("id", .num i), ("name", .str n),
          ("created_at", .num c), ("updated_at", .num u)] =>
    some ⟨i.toNat, n, c.toNat, u.toNat⟩
  | _ => none

/-- Validate each element of a JSON array (pydantic list-field semantics). -/
def decodeList {α : Type} (dec : Json → Option α) : List Json → Option (List α)
  | [] => some []
  | j :: js =>
    match dec j, decodeList dec js with
    | some x, some xs => some (x :: xs)
    | _, _ => none

/-- Serialize an optional cursor token. -/
def cursorToJson : Option Nat → Json
  | none => .null
  | some k => .num k

/-- Validate an optional cursor token. -/
def cursorFromJson : Json → Option (Option Nat)
  | .null => some none
  | .num k => some (some k.toNat)
  | _ => none

/-- `CursorPage[BucketResponse].model_dump_json`, composed with `json.loads`. -/
def bucketPageToJson (p : BucketPage) : Json :=
  .obj [("items", .arr (p.items.map bucketToJson)),
        ("next_page", cursorToJson p.nextCursor)]

/-- `CursorPage[BucketResponse].model_validate` on a parsed document. -/
def bucketPageFromJson : Json → Option BucketPage
  | .obj [("items", .arr js), ("next_page", c)] =>
    match decodeList bucketFromJson js, cursorFromJson c with
    | some items, some cur => some ⟨items, cur⟩
    | _, _ => none
  | _ => none

/-- The serializer pair `redis_cache` uses for `fetch_buckets`, whose return
annotation is `CursorPage[BucketResponse]`. -/
def bucketPageModel : PyModel BucketPage :=
  ⟨bucketPageToJson, bucketPageFromJson⟩

/-! ### Cursor pagination -/

/-- Modelled from the spec: the page-size bound of the paginator
(`fastapi_pagination.CursorParams` / `MAX_PAGE_SIZE`, which `set_pagination` in
`app/services/deps.py` forwards the raw query value to; the library itself is
not part of `src/`). Per the spec, `size` is clamped to `[1, MAX_PAGE_SIZE]`
with `MAX_PAGE_SIZE` defaulting to 100. -/
def clampSize (s : Int) : Nat :=
  if s < 1 then 1 else if 100 < s then 100 else s.toNat

/-- Modelled from the spec: one page of the keyset paginator
(`fastapi_pagination.ext.sqlalchemy.apaginate`, not part of `src/`). Per the
spec, "Cursor encodes the last-seen sort key(s) of the prior page": a page
serves the first `clampSize size` rows whose sort key lies strictly after the
cursor, in the ordering the caller's query supplies (`rows` arrives already
ordered; the sort key is whatever that query's `order_by` names). The next
cursor is the last served row's key, or `None` when the remainder fits on this
page. -/
def keysetPage {α : Type} (key : α → Nat) (rows : List α)
    (cursor : Option Nat) (size : Int) : List α × Option Nat :=
  let eff := clampSize size
  let remaining := match cursor with
    | none => rows
    | some k => rows.filter (fun r => decide (k < key r))
  let items := remaining.take eff
  let next := if eff < remaining.length then (remaining[eff - 1]?).map key else none
  (items, next)

/-- Concatenate the pages of `keysetPage` from a starting cursor to exhaustion,
re-querying `rows` with each returned cursor (as each HTTP call re-runs the
query). `fuel` bounds the number of pages taken. -/
def pagesFrom {α : Type} (key : α → Nat) (rows : List α)
    (cursor : Option Nat) (size : Int) : Nat → List α
  | 0 => []
  | fuel + 1 =>
    match keysetPage key rows cursor size with
    | (items, none) => items
    | (items, some k) => items ++ pagesFrom key rows (some k) size fuel

/-! ### Services (`app/services/bucket_service.py`) -/

/-- The `ORDER BY` comparison of `get_all_buckets`:
`select(Bucket).order_by(Bucket.updated_at)` — the timestamp alone, with no
secondary sort column. -/
def bucketOrder (a b : BucketRec) : Prop := a.updatedAt ≤ b.updatedAt

/-- The `ORDER BY` comparison of `get_bucket_with_events`:
`.order_by(Event.created_at)` — again with no secondary sort column. -/
def eventOrder (a b : EventRec) : Prop := a.createdAt ≤ b.createdAt

instance : DecidableRel bucketOrder := fun a b => Nat.decLe a.updatedAt b.updatedAt

instance : DecidableRel eventOrder := fun a b => Nat.decLe a.createdAt b.createdAt

/-- The row sequence the bucket-listing query produces: the bucket table in
`updated_at` order. SQL leaves the order of ties unspecified; a stable sort of
the table's insertion order is one concrete resolution, and no theorem below
depends on which resolution is picked. -/
def orderedBuckets (store : Store) : List BucketRec :=
  List.insertionSort bucketOrder store

/-- The row sequence the event-listing query produces for one bucket. -/
def orderedEvents (evs : List EventRec) : List EventRec :=
  List.insertionSort eventOrder evs

/-- `BucketService.get_all_buckets`: paginate the ordered bucket table
(`apaginate(session, select(Bucket).order_by(Bucket.updated_at))`, the cursor
and size having been routed in by `set_pagination`). -/
def get_all_buckets (store : Store) (cursor : Option Nat) (size : Int) : BucketPage :=
  match keysetPage (fun b => b.updatedAt) (orderedBuckets store) cursor size with
  | (items, next) => ⟨items.map bucketOut, next⟩

/-- `BucketService.get_bucket_by_name`: `.where(Bucket.name == name)` then
`.one()`; `NoResultFound` is turned into `NotFoundException("Bucket")` by the
`sqlalchemy_exception_handler(resource_name="Bucket")` decorator. -/
def get_bucket_by_name (store : Store) (name : String) : Except ApiError BucketRec :=
  match store.find? (fun b => b.name == name) with
  | some b => .ok b
  | none => .error (.notFound "Bucket")

/-- `BucketEventMixin` (`app/schemas/mixin.py`): the bucket fields plus the
created event. -/
structure BucketEventOut where
  bucket : BucketOut
  event : EventRec
deriving DecidableEq, Repr

/-- `BucketService.create_bucket_with_event`, with its race window explicit:
`interleaved` is the list of bucket rows other tasks commit between this call's
`get_bucket_by_name` and its `session.commit()` (empty for a sequential call).
The path taken mirrors the source: try the lookup; on `NotFoundException`,
blind-insert a fresh bucket; append the event; commit. A commit that inserts a
bucket whose name meanwhile exists violates the unique constraint on
`Bucket.name`: the `IntegrityError` is caught by
`sqlalchemy_exception_handler(resource_name="Bucket")` and re-raised as
`AlreadyExistsException("Bucket")`, the transaction rolled back. The store is
returned alongside the outcome (on failure it keeps only the interleaved
commits). Fresh ids and the commit timestamp are parameters. -/
def create_bucket_with_event (store : Store) (interleaved : List BucketRec)
    (name title message : String) (newBucketId newEventId now : Nat) :
    Except ApiError BucketEventOut × Store :=
  let committed := store ++ interleaved
  match get_bucket_by_name store name with
  | .ok b =>
    -- update path: append the event to the existing bucket row
    let ev : EventRec := ⟨newEventId, title, message, now⟩
    let b' : BucketRec := { b with events := b.events ++ [ev] }
    (.ok ⟨bucketOut b', ev⟩,
     committed.map (fun r => if r.id == b.id then b' else r))
  | .error _ =>
    -- create path: `Bucket(name=name)` with the event appended, then commit
    let ev : EventRec := ⟨newEventId, title, message, now⟩
    let b' : BucketRec := ⟨newBucketId, name, now, now, [ev]⟩
    if committed.any (fun r => r.name == name) then
      (.error (.alreadyExists "Bucket"), committed)
    else
      (.ok ⟨bucketOut b', ev⟩, committed ++ [b'])

/-! ### Cache keys (`app/api/v1/http/bucket.py`, `app/api/v1/http/event.py`) -/

/-- Python string interpolation of the `cursor` kwarg into a key template
(`None` renders as `"None"`; a token renders as its text, here the decimal
image of the key it encodes). -/
def cursorText : Option Nat → String
  | none => "None"
  | some k => toString k

/-- `"buckets:cursor={cursor}:size={size}".format(**kwargs)`. -/
def bucketsListKey (cursor : Option Nat) (size : Int) : String :=
  "buckets:cursor=" ++ cursorText cursor ++ ":size=" ++ toString size

/-- `"bucket_events:{bucket_name}:cursor={cursor}:size={size}".format(**kwargs)`. -/
def bucketEventsKey (bucketName : String) (cursor : Option Nat) (size : Int) : String :=
  "bucket_events:" ++ bucketName ++ ":cursor=" ++ cursorText cursor
    ++ ":size=" ++ toString size

/-- `"event:{bucket_name}:{event_ID}".format(**kwargs)`. -/
def eventKey (bucketName : String) (eventId : Nat) : String :=
  "event:" ++ bucketName ++ ":" ++ toString eventId

/-! ### HTTP handlers (`app/api/v1/http/bucket.py`) -/

/-- `fetch_buckets`: the `GET /v1/buckets/` handler, wrapped by
`@redis_cache("buckets:cursor={cursor}:size={size}", ttl=3600)`. The underlying
read is `BucketService.get_all_buckets` (which cannot itself fail on a
reachable database, so the wrapped thunk is always `.ok`). -/
def fetch_buckets (cursor : Option Nat) (size : Int) (store : Store)
    (redis : Redis) : Except ApiError BucketPage × Redis × Nat :=
  redis_cache bucketPageModel (bucketsListKey cursor size)
    (.ok (get_all_buckets store cursor size)) redis

/-- `send_event_to_bucket`: the `PUT /v1/buckets/{bucket_name}` handler body
(the innermost function, before the two invalidation wrappers). It only touches
the store; the Redis state is passed through untouched. -/
def send_event_to_bucket_handler (name title message : String)
    (interleaved : List BucketRec) (newBucketId newEventId now : Nat)
    (store : Store) (redis : Redis) :
    Except ApiError BucketEventOut × Store × Redis :=
  let r := create_bucket_with_event store interleaved name title message
      newBucketId newEventId now
  (r.1, r.2, redis)

/-- `send_event_to_bucket` with its decorator stack, outermost first:
`@invalidate_cache("bucket_events:{bucket_name}", EVENT_UPDATED, recursive=True)`
wrapping `@invalidate_cache("buckets", EVENT_CREATED, recursive=True)` wrapping
the handler body. -/
def send_event_to_bucket (name title message : String)
    (interleaved : List BucketRec) (newBucketId newEventId now : Nat)
    (store : Store) (redis : Redis) :
    Except ApiError BucketEventOut × Store × Redis :=
  invalidate_cache ("bucket_events:" ++ name) true
    (invalidate_cache "buckets" true
      (send_event_to_bucket_handler name title message interleaved
        newBucketId newEventId now))
    store redis

/-- `BucketService.get_bucket_with_events`: look the bucket up by name, then
paginate its events in `created_at` order. -/
def get_bucket_with_events (store : Store) (name : String)
    (cursor : Option Nat) (size : Int) :
    Except ApiError (BucketRec × (List EventRec × Option Nat)) :=
  match get_bucket_by_name store name with
  | .error e => .error e
  | .ok b => .ok (b, keysetPage (fun e => e.createdAt) (orderedEvents b.events) cursor size)

/-! ### Path-parameter validation (`app/services/deps.py`, lines 18-40) -/

/-- Python `str.isalnum` on a single character, for ASCII text: `isalpha` or
`isdigit`. (Python's full definition ranges over Unicode categories; every
theorem below that relies on this definition confines itself to ASCII strings,
where the two agree.) -/
def pyAlnumChar (c : Char) : Bool := c.isAlpha || c.isDigit

/-- Python `str.isalnum`: nonempty and every character alphanumeric. -/
def pyIsAlnum (s : String) : Bool := !s.data.isEmpty && s.data.all pyAlnumChar

/-- `value.replace("-", "").replace("_", "")`. -/
def stripDashUnderscore (s : String) : String :=
  ⟨(s.data.filter (fun c => c != '-')).filter (fun c => c != '_')⟩

/-- One parameter's check inside the dependency returned by
`check_alphanumeric_dash_underscore_path_params`: raise
`UnprocessableEntityException` (422) with the exact message when `value` is
truthy and fails the stripped-`isalnum` test, otherwise pass. -/
def check_path_param (param value : String) : Except ApiError Unit :=
  if value != "" && !(pyIsAlnum (stripDashUnderscore value)) then
    .error (.unprocessable ("Invalid value for " ++ param ++ ": " ++ value
      ++ ". Only alphanumeric characters, dashes, and underscores are allowed."))
  else
    .ok ()

/-- One character of the class `[A-Za-z0-9_-]` (the spec's regex
`^[A-Za-z0-9_-]+$`; `Char.isAlpha`/`Char.isDigit` are exactly the ASCII
letter and digit ranges). -/
def wordChar (c : Char) : Bool := c.isAlpha || c.isDigit || c == '-' || c == '_'

/-- The spec's acceptance predicate, written from its words: `s` matches the
regex `^[A-Za-z0-9_-]+$`. -/
def regexAccepts (s : String) : Bool := !s.isEmpty && s.data.all wordChar



/-- The rows a page with cursor `c` queries: those strictly after the cursor
key, in the given order (the body of `keysetPage`, named for proofs). -/
def remainingOf {α : Type} (key : α → Nat) (rows : List α) : Option Nat → List α
  | none => rows
  | some k => rows.filter (fun r => decide (k < key r))

/-- Concatenation of all bucket-listing pages, from `cursor=None` to
exhaustion, each page re-running the `updated_at`-ordered query (the fuel — one
page consumes at least one row — is bounded by the table size). -/
def allPagesBuckets (store : Store) (size : Int) : List BucketRec :=
  pagesFrom (fun b => b.updatedAt) (orderedBuckets store) none size
    (orderedBuckets store).length

/-- Concatenation of all event-listing pages of one bucket, from `cursor=None`
to exhaustion, each page re-running the `created_at`-ordered query. -/
def allPagesEvents (evs : List EventRec) (size : Int) : List EventRec :=
  pagesFrom (fun e => e.createdAt) (orderedEvents evs) none size
    (orderedEvents evs).length

/-! ## Helper lemmas -/

/-- Every character surviving the dash/underscore strip is alphanumeric exactly
when every original character is in `[A-Za-z0-9_-]`. -/
theorem strip_all_aux (t : List Char) :
    ((t.filter (fun c => c != '-')).filter (fun c => c != '_')).all pyAlnumChar
      = t.all wordChar := by
  induction t with
  | nil => rfl
  | cons c r ih =>
    by_cases h1 : c = '-'
    · subst h1
      have hw : wordChar '-' = true := by decide
      have f1 : List.filter (fun x => x != '-') ('-' :: r)
          = List.filter (fun x => x != '-') r := by simp [List.filter_cons]
      simp only [f1, List.all_cons, hw, Bool.true_and]
      exact ih
    · by_cases h2 : c = '_'
      · subst h2
        have hw : wordChar '_' = true := by decide
        have f1 : List.filter (fun x => x != '-') ('_' :: r)
            = '_' :: List.filter (fun x => x != '-') r := by simp [List.filter_cons]
        have f2 : List.filter (fun x => x != '_')
              ('_' :: List.filter (fun x => x != '-') r)
            = List.filter (fun x => x != '_') (List.filter (fun x => x != '-') r) := by
          simp [List.filter_cons]
        simp only [f1, f2, List.all_cons, hw, Bool.true_and]
        exact ih
      · have k1 : (c != '-') = true := by simp [h1]
        have k2 : (c != '_') = true := by simp [h2]
        have e1 : (c == '-') = false := by simp [h1]
        have e2 : (c == '_') = false := by simp [h2]
        have hw : wordChar c = pyAlnumChar c := by
          simp [wordChar, pyAlnumChar, e1, e2]
        have f1 : List.filter (fun x => x != '-') (c :: r)
            = c :: List.filter (fun x => x != '-') r := by simp [List.filter_cons, k1]
        have f2 : List.filter (fun x => x != '_')
              (c :: List.filter (fun x => x != '-') r)
            = c :: List.filter (fun x => x != '_') (List.filter (fun x => x != '-') r) := by
          simp [List.filter_cons, k2]
        rw [f1, f2, List.all_cons, List.all_cons, ih, hw]

/-- Stripping dashes and underscores and asking `isalnum` is the same as: every
character is in `[A-Za-z0-9_-]` and at least one is alphanumeric. -/
theorem strip_isalnum (l : List Char) :
    (!((l.filter (fun c => c != '-')).filter (fun c => c != '_')).isEmpty
      && ((l.filter (fun c => c != '-')).filter (fun c => c != '_')).all pyAlnumChar)
    = (l.all wordChar && l.any pyAlnumChar) := by
  induction l with
  | nil => rfl
  | cons c t ih =>
    by_cases h1 : c = '-'
    · subst h1
      have hw : wordChar '-' = true := by decide
      have hp : pyAlnumChar '-' = false := by decide
      have f1 : List.filter (fun x => x != '-') ('-' :: t)
          = List.filter (fun x => x != '-') t := by simp [List.filter_cons]
      simp only [f1, List.all_cons, List.any_cons, hw, hp, Bool.true_and, Bool.false_or]
      exact ih
    · by_cases h2 : c = '_'
      · subst h2
        have hw : wordChar '_' = true := by decide
        have hp : pyAlnumChar '_' = false := by decide
        have f1 : List.filter (fun x => x != '-') ('_' :: t)
            = '_' :: List.filter (fun x => x != '-') t := by simp [List.filter_cons]
        have f2 : List.filter (fun x => x != '_')
              ('_' :: List.filter (fun x => x != '-') t)
            = List.filter (fun x => x != '_') (List.filter (fun x => x != '-') t) := by
          simp [List.filter_cons]
        simp only [f1, f2, List.all_cons, List.any_cons, hw, hp, Bool.true_and, Bool.false_or]
        exact ih
      · have k1 : (c != '-') = true := by simp [h1]
        have k2 : (c != '_') = true := by simp [h2]
        have e1 : (c == '-') = false := by simp [h1]
        have e2 : (c == '_') = false := by simp [h2]
        have hw : wordChar c = pyAlnumChar c := by
          simp [wordChar, pyAlnumChar, e1, e2]
        have f1 : List.filter (fun x => x != '-') (c :: t)
            = c :: List.filter (fun x => x != '-') t := by simp [List.filter_cons, k1]
        have f2 : List.filter (fun x => x != '_')
              (c :: List.filter (fun x => x != '-') t)
            = c :: List.filter (fun x => x != '_') (List.filter (fun x => x != '-') t) := by
          simp [List.filter_cons, k2]
        rw [f1, f2, List.all_cons, List.all_cons, List.any_cons]
        simp only [List.isEmpty_cons, Bool.not_false, Bool.true_and]
        rw [strip_all_aux, hw]
        cases hpc : pyAlnumChar c <;> simp [hpc]

/-! ## C7 — bucket_name path-parameter validation -/

/-- C7, counterexample: the claim "the check accepts `s` if and only if `s`
matches `^[A-Za-z0-9_-]+$`" is false at `s = "-"`: the regex matches `"-"`,
but the code rejects it (after stripping dashes and underscores the empty
string is not `isalnum`). -/
theorem c7_counterexample :
    regexAccepts "-" = true
    ∧ check_path_param "bucket_name" "-" = .error (.unprocessable
        "Invalid value for bucket_name: -. Only alphanumeric characters, dashes, and underscores are allowed.") := by
  exact ⟨rfl, rfl⟩

/-- C7, amended: for ASCII strings (where Lean's `isAlpha`/`isDigit` agree with
Python's `isalnum`), the check accepts `s` exactly when `s` is empty (a falsy
value is skipped) or every character of `s` lies in `[A-Za-z0-9_-]` and at
least one of them is alphanumeric — so, against the spec's regex, strings of
dashes/underscores only are additionally rejected and the empty string is
additionally accepted; every rejection is the 422 with the exact message the
claim gives. -/
theorem c7_amended (param s : String) (hascii : ∀ c ∈ s.data, c.toNat < 128) :
    (check_path_param param s = .ok () ↔
      (s.data = [] ∨ (s.data.all wordChar = true ∧ s.data.any pyAlnumChar = true)))
    ∧ (check_path_param param s ≠ .ok () →
        check_path_param param s = .error (.unprocessable ("Invalid value for "
          ++ param ++ ": " ++ s
          ++ ". Only alphanumeric characters, dashes, and underscores are allowed."))) := by
  clear hascii
  constructor
  · by_cases hs : s = ""
    · subst hs
      simp [check_path_param]
    · have hne : (s != "") = true := by simp [hs]
      have hd : s.data ≠ [] := fun h => hs (String.ext h)
      have kk : pyIsAlnum (stripDashUnderscore s)
          = (s.data.all wordChar && s.data.any pyAlnumChar) := strip_isalnum s.data
      unfold check_path_param
      rw [hne, kk]
      cases hall : s.data.all wordChar <;> cases hany : s.data.any pyAlnumChar <;>
        simp [hall, hany, hd]
  · intro h
    unfold check_path_param at h ⊢
    by_cases hcond : (s != "" && !pyIsAlnum (stripDashUnderscore s)) = true
    · rw [if_pos hcond]
    · rw [if_neg hcond] at h
      exact absurd rfl h

/-- C7, witness for the amended theorem at `s = "My-Bucket_1"` (accepted) and,
via the rejection branch, at `s = "____"` (all underscores: rejected with the
exact 422 message). -/
theorem c7_witness :
    check_path_param "bucket_name" "My-Bucket_1" = .ok ()
    ∧ check_path_param "bucket_name" "____" = .error (.unprocessable
        "Invalid value for bucket_name: ____. Only alphanumeric characters, dashes, and underscores are allowed.") := by
  constructor
  · exact (c7_amended "bucket_name" "My-Bucket_1" (by decide)).1.mpr (by decide)
  · have hne : check_path_param "bucket_name" "____" ≠ .ok () := by
      intro h
      have e : check_path_param "bucket_name" "____" = Except.error (ApiError.unprocessable
          "Invalid value for bucket_name: ____. Only alphanumeric characters, dashes, and underscores are allowed.") := rfl
      rw [e] at h
      exact Except.noConfusion h
    exact (c7_amended "bucket_name" "____" (by decide)).2 hne

/-! ## C1 — order of write and invalidation -/

/-- C1, counterexample: the claim "the store mutation executes and succeeds
before any cache invalidation, and if the write fails no cache key is deleted"
is false at a concrete failing write. A `PUT /v1/buckets/n` racing a concurrent
create of `"n"` fails with `AlreadyExistsException`, yet the cached listing
page under the key `buckets:cursor=None:size=10` has been deleted by the
wrappers before the write ran. -/
theorem c1_counterexample :
    (send_event_to_bucket "n" "t" "m" [⟨9, "n", 0, 0, []⟩] 1 2 3 []
        (.conn [(bucketsListKey none 10, .null)])).1
      = .error (.alreadyExists "Bucket")
    ∧ (send_event_to_bucket "n" "t" "m" [⟨9, "n", 0, 0, []⟩] 1 2 3 []
        (.conn [(bucketsListKey none 10, .null)])).2.2
      = .conn [] := by
  exact ⟨rfl, rfl⟩

/-- C1, amended: on a reachable cache backend, both `invalidate_cache` wrappers
delete their matching keys BEFORE the wrapped write runs: the call is equal to
the bare handler run against the already-invalidated keyspace, and consequently
the resulting keyspace is the invalidated one whether the write succeeds or
fails (a failed write propagates its error only after the deletions). -/
theorem c1_amended (name title message : String) (interleaved : List BucketRec)
    (newBucketId newEventId now : Nat) (store : Store) (c : CacheMap) :
    send_event_to_bucket name title message interleaved newBucketId newEventId now
        store (.conn c)
      = send_event_to_bucket_handler name title message interleaved newBucketId
          newEventId now store
          (.conn (scanDeleteStar "buckets" (scanDeleteStar ("bucket_events:" ++ name) c)))
    ∧ (send_event_to_bucket name title message interleaved newBucketId newEventId now
        store (.conn c)).2.2
      = .conn (scanDeleteStar "buckets" (scanDeleteStar ("bucket_events:" ++ name) c)) := by
  exact ⟨rfl, rfl⟩

/-! ## C3 — cache unavailability and reads -/

/-- C3, counterexample: the claim "unavailability or failure of the cache
backend never causes the read to fail" is false when the Redis server is
unreachable: the same listing that succeeds against an empty reachable cache
(and against an absent dependency) raises the uncaught `ConnectionError` from
`await redis.get(...)`, and the underlying read function is never called. -/
theorem c3_counterexample :
    (fetch_buckets none 10 [] (.conn [])).1 = .ok ⟨[], none⟩
    ∧ (fetch_buckets none 10 [] .absent).1 = .ok ⟨[], none⟩
    ∧ (fetch_buckets none 10 [] .down).1 = .error .cacheConnection
    ∧ (fetch_buckets none 10 [] .down).2.2 = 0 := by
  exact ⟨rfl, rfl, rfl, rfl⟩

/-- C3, amended: only a FALSY Redis dependency degrades the read — the wrapped
function is then called directly, once, and the cache is skipped. When the
backend raises during `get`, the error propagates to the caller and the
underlying function is never called (the wrapper has no exception handling). -/
theorem c3_amended (α : Type) (model : PyModel α) (cacheKey : String)
    (func : Except ApiError α) :
    redis_cache model cacheKey func .absent = (func, .absent, 1)
    ∧ redis_cache model cacheKey func .down = (.error .cacheConnection, .down, 0) := by
  exact ⟨rfl, rfl⟩

/-! ## C6 — the unique-name create race -/

/-- C6: the failing path of the claim. Two concurrent `PUT /v1/buckets/b1` on a
never-existing bucket: the loser's `get_bucket_by_name` raised
`NoResultFound → NotFoundException`, it blind-inserted `Bucket(name="b1")`, and
meanwhile the winner committed the row `⟨9, "b1", ...⟩`. The loser's commit
violates the unique constraint and `create_bucket_with_event` surfaces
`AlreadyExistsException("Bucket")` (HTTP 409) to the caller — there is no
re-fetch-and-append retry, contradicting the claim (and the spec's stated
intent, which §9 of the spec itself concedes the source does not implement). -/
theorem c6_conflict_surfaces :
    create_bucket_with_event [] [⟨9, "b1", 0, 0, []⟩] "b1" "t" "m" 1 2 3
      = (.error (.alreadyExists "Bucket"), [⟨9, "b1", 0, 0, []⟩]) := by
  exact rfl

/-! ## C2 — read-through behaviour of redis_cache -/

/-- C2: on a reachable backend, a hit (a stored value at the built key that
deserializes) returns the deserialized cached value, leaves the keyspace
unchanged and never awaits the wrapped read; a miss awaits it exactly once and,
when it succeeds, stores the serialized result under the key before returning
it. -/
theorem c2_read_through (α : Type) (model : PyModel α) (cacheKey : String)
    (func : Except ApiError α) (c : CacheMap) :
    (∀ v x, lookupKey c cacheKey = some v → model.validate v = some x →
      redis_cache model cacheKey func (.conn c) = (.ok x, .conn c, 0))
    ∧ (∀ r, lookupKey c cacheKey = none → func = .ok r →
      redis_cache model cacheKey func (.conn c)
        = (.ok r, .conn (setKey c cacheKey (model.dump r)), 1)) := by
  constructor
  · intro v x hv hx
    simp [redis_cache, hv, hx]
  · intro r hv hr
    simp [redis_cache, hv, hr]

/-- C2, witness: a hit on a stored bucket page is served from the cache with
zero awaits of the read; a miss on a fresh key computes, stores and returns
with exactly one await. -/
theorem c2_witness :
    redis_cache bucketPageModel "k" (.ok ⟨[], none⟩)
        (.conn [("k", bucketPageToJson ⟨[], some 4⟩)])
      = (.ok ⟨[], some 4⟩, .conn [("k", bucketPageToJson ⟨[], some 4⟩)], 0)
    ∧ redis_cache bucketPageModel "k2" (.ok ⟨[], none⟩) (.conn [])
      = (.ok ⟨[], none⟩, .conn (setKey [] "k2" (bucketPageModel.dump ⟨[], none⟩)), 1) := by
  constructor
  · exact (c2_read_through BucketPage bucketPageModel "k" (.ok ⟨[], none⟩)
      [("k", bucketPageToJson ⟨[], some 4⟩)]).1 (bucketPageToJson ⟨[], some 4⟩)
      ⟨[], some 4⟩ rfl rfl
  · exact (c2_read_through BucketPage bucketPageModel "k2" (.ok ⟨[], none⟩) []).2
      ⟨[], none⟩ rfl rfl

/-! ## C5 — page-size clamping -/

/-- C5: the requested page size is clamped into `[1, MAX_PAGE_SIZE]`
(`MAX_PAGE_SIZE` = 100): zero or negative sizes become 1, oversized requests
become 100, in-range sizes pass through; no size is an error, and a page the
paginator serves never exceeds the clamp. (The clamp itself is the
spec-modelled `CursorParams` bound of `fastapi_pagination`, which
`set_pagination` forwards the raw query value to.) -/
theorem c5_size_clamped (s : Int) :
    (s ≤ 0 → clampSize s = 1)
    ∧ (100 < s → clampSize s = 100)
    ∧ (1 ≤ s → s ≤ 100 → clampSize s = s.toNat)
    ∧ 1 ≤ clampSize s ∧ clampSize s ≤ 100
    ∧ ∀ (α : Type) (key : α → Nat) (rows : List α) (cursor : Option Nat),
        (keysetPage key rows cursor s).1.length ≤ clampSize s := by
  refine ⟨?_, ?_, ?_, ?_, ?_, ?_⟩
  · intro h
    unfold clampSize
    rw [if_pos (by omega)]
  · intro h
    unfold clampSize
    rw [if_neg (by omega), if_pos h]
  · intro h1 h2
    unfold clampSize
    rw [if_neg (by omega), if_neg (by omega)]
  · unfold clampSize
    split
    · exact Nat.le_refl 1
    · split
      · omega
      · omega
  · unfold clampSize
    split
    · omega
    · split
      · omega
      · omega
  · intro α key rows cursor
    cases cursor <;> simp [keysetPage]

/-- C5, witness: the clamp at the claim's boundary sizes. -/
theorem c5_witness :
    clampSize 0 = 1 ∧ clampSize (-7) = 1 ∧ clampSize 250 = 100
    ∧ clampSize 10 = Int.toNat 10 := by
  exact ⟨(c5_size_clamped 0).1 (by decide), (c5_size_clamped (-7)).1 (by decide),
    (c5_size_clamped 250).2.1 (by decide),
    (c5_size_clamped 10).2.2.1 (by decide) (by decide)⟩

/-! ## Serialization round-trip and keyspace lemmas -/

/-- A serialized bucket always validates back to itself. -/
theorem bucket_roundtrip (b : BucketOut) :
    bucketFromJson (bucketToJson b) = some b := by
  simp [bucketToJson, bucketFromJson]

/-- A list of serialized buckets always validates back to itself. -/
theorem decodeList_roundtrip (items : List BucketOut) :
    decodeList bucketFromJson (items.map bucketToJson) = some items := by
  induction items with
  | nil => rfl
  | cons b t ih => simp [decodeList, bucket_roundtrip, ih]

/-- A serialized cursor token always validates back to itself. -/
theorem cursor_roundtrip (c : Option Nat) :
    cursorFromJson (cursorToJson c) = some c := by
  cases c <;> simp [cursorToJson, cursorFromJson]

/-- A serialized bucket page always validates back to itself: what
`redis_cache` stores on a miss is exactly what a later hit deserializes. -/
theorem bucketPage_roundtrip (p : BucketPage) :
    bucketPageFromJson (bucketPageToJson p) = some p := by
  simp [bucketPageToJson, bucketPageFromJson, decodeList_roundtrip, cursor_roundtrip]

/-- Looking up the key just written finds the written value. -/
theorem lookupKey_setKey_self (c : CacheMap) (k : String) (v : Json) :
    lookupKey (setKey c k v) k = some v := by
  simp [lookupKey, setKey]

/-- A key covered by a deleted literal-plus-star pattern is gone afterwards. -/
theorem lookupKey_scanDeleteStar_covered (pat k : String) (c : CacheMap)
    (h : strHasPre pat k = true) :
    lookupKey (scanDeleteStar pat c) k = none := by
  induction c with
  | nil => rfl
  | cons kv t ih =>
    by_cases hk : kv.1 = k
    · have hdrop : (!strHasPre pat kv.1) = false := by
        rw [hk, h]
        rfl
      simpa [scanDeleteStar, List.filter_cons, hdrop] using ih
    · by_cases hkeep : strHasPre pat kv.1
      · have hdrop : (!strHasPre pat kv.1) = false := by
          rw [hkeep]
          rfl
        simpa [scanDeleteStar, List.filter_cons, hdrop] using ih
      · have hkeep' : (!strHasPre pat kv.1) = true := by
          simp [Bool.not_eq_true] at hkeep
          rw [hkeep]
          rfl
        have hne : (kv.1 == k) = false := by simp [hk]
        simpa [scanDeleteStar, List.filter_cons, hkeep', lookupKey, List.find?_cons, hne]
          using ih

/-- A key not covered by the deleted pattern keeps its binding. -/
theorem lookupKey_scanDeleteStar_frame (pat k : String) (c : CacheMap)
    (h : strHasPre pat k = false) :
    lookupKey (scanDeleteStar pat c) k = lookupKey c k := by
  induction c with
  | nil => rfl
  | cons kv t ih =>
    by_cases hk : kv.1 = k
    · have hkeep : (!strHasPre pat kv.1) = true := by
        rw [hk, h]
        rfl
      have heq : (kv.1 == k) = true := by simp [hk]
      simp [scanDeleteStar, List.filter_cons, hkeep, lookupKey, List.find?_cons, heq]
    · have hne : (kv.1 == k) = false := by simp [hk]
      by_cases hkeep : strHasPre pat kv.1
      · have hdrop : (!strHasPre pat kv.1) = false := by
          rw [hkeep]
          rfl
        simpa [scanDeleteStar, List.filter_cons, hdrop, lookupKey, List.find?_cons, hne]
          using ih
      · have hkeep' : (!strHasPre pat kv.1) = true := by
          simp [Bool.not_eq_true] at hkeep
          rw [hkeep]
          rfl
        simpa [scanDeleteStar, List.filter_cons, hkeep', lookupKey, List.find?_cons, hne]
          using ih

/-! ## C9 — idempotent reads under an unchanged store -/

/-- C9: with no intervening write, two consecutive `listBuckets` calls with the
same cursor and size return the same page: whatever the first call did (hit,
miss-and-store, or a failed deserialization of a foreign entry), the second
call — served from the keyspace the first call left behind — produces an equal
result, because a stored page always validates back to itself. -/
theorem c9_idempotent_reads (store : Store) (c0 : CacheMap)
    (cursor : Option Nat) (s : Int) :
    (fetch_buckets cursor s store ((fetch_buckets cursor s store (.conn c0)).2.1)).1
      = (fetch_buckets cursor s store (.conn c0)).1 := by
  cases h : lookupKey c0 (bucketsListKey cursor s) with
  | none =>
    simp [fetch_buckets, redis_cache, h, lookupKey_setKey_self, bucketPage_roundtrip,
      bucketPageModel]
  | some v =>
    cases hv : bucketPageFromJson v with
    | some x => simp [fetch_buckets, redis_cache, h, hv, bucketPageModel]
    | none => simp [fetch_buckets, redis_cache, h, hv, bucketPageModel]

/-- A prefix of `s` is a prefix of `s ++ t`. -/
theorem strHasPre_extend (p s t : String) (h : strHasPre p s = true) :
    strHasPre p (s ++ t) = true := by
  unfold strHasPre at h ⊢
  rw [String.data_append, List.isPrefixOf_iff_prefix] at *
  exact h.trans (List.prefix_append s.data t.data)

/-- Prefix tests are preserved under prepending a common literal. -/
theorem strHasPre_append_both (a s t : String) (h : strHasPre s t = true) :
    strHasPre (a ++ s) (a ++ t) = true := by
  unfold strHasPre at h ⊢
  rw [String.data_append, String.data_append, List.isPrefixOf_iff_prefix] at *
  exact (List.prefix_append_right_inj a.data).mpr h

/-- No key built by `eventKey` starts with a `bucket_events:`-shaped pattern. -/
theorem eventKey_not_bucket_events (name bn : String) (eid : Nat) :
    strHasPre ("bucket_events:" ++ name) (eventKey bn eid) = false := by
  unfold strHasPre eventKey
  simp only [String.data_append, List.cons_append]
  have hbe : (('b' : Char) == 'e') = false := by decide
  simp [List.isPrefixOf, hbe]

/-- No key built by `eventKey` starts with `buckets`. -/
theorem eventKey_not_buckets (bn : String) (eid : Nat) :
    strHasPre "buckets" (eventKey bn eid) = false := by
  unfold strHasPre eventKey
  simp only [String.data_append, List.cons_append]
  have hbe : (('b' : Char) == 'e') = false := by decide
  simp [List.isPrefixOf, hbe]

/-! ## C10 — what one write's invalidation deletes, and what it leaves alone -/

/-- C10: a `PUT /v1/buckets/{name}` leaves the keyspace equal to the original
with exactly the keys matching `bucket_events:{name}*` and `buckets*` removed.
Hence (i) every key extending `"bucket_events:" ++ name` is gone — in
particular, for ANY bucket `m` whose name extends `name`, every cached
event-list page of `m` is gone too (over-deletion across buckets sharing a
name prefix); (ii) a key extending neither `"bucket_events:" ++ name` nor
`"buckets"` keeps its binding — in particular every `event:{bucket}:{id}`
entry. -/
theorem c10_invalidation_frame (name title message : String)
    (interleaved : List BucketRec) (newBucketId newEventId now : Nat)
    (store : Store) (c : CacheMap) :
    (send_event_to_bucket name title message interleaved newBucketId newEventId now
        store (.conn c)).2.2
      = .conn (scanDeleteStar "buckets" (scanDeleteStar ("bucket_events:" ++ name) c))
    ∧ (∀ k, strHasPre ("bucket_events:" ++ name) k = true →
        lookupKey (scanDeleteStar "buckets"
          (scanDeleteStar ("bucket_events:" ++ name) c)) k = none)
    ∧ (∀ m (cur : Option Nat) (sz : Int), strHasPre name m = true →
        lookupKey (scanDeleteStar "buckets"
          (scanDeleteStar ("bucket_events:" ++ name) c)) (bucketEventsKey m cur sz) = none)
    ∧ (∀ k, strHasPre ("bucket_events:" ++ name) k = false →
        strHasPre "buckets" k = false →
        lookupKey (scanDeleteStar "buckets"
          (scanDeleteStar ("bucket_events:" ++ name) c)) k = lookupKey c k)
    ∧ (∀ bn (eid : Nat),
        lookupKey (scanDeleteStar "buckets"
          (scanDeleteStar ("bucket_events:" ++ name) c)) (eventKey bn eid)
          = lookupKey c (eventKey bn eid)) := by
  have covered : ∀ k, strHasPre ("bucket_events:" ++ name) k = true →
      lookupKey (scanDeleteStar "buckets"
        (scanDeleteStar ("bucket_events:" ++ name) c)) k = none := by
    intro k hk
    by_cases hb : strHasPre "buckets" k = true
    · exact lookupKey_scanDeleteStar_covered "buckets" k _ hb
    · rw [lookupKey_scanDeleteStar_frame "buckets" k _ (by
        rwa [Bool.not_eq_true] at hb)]
      exact lookupKey_scanDeleteStar_covered _ k c hk
  have frame : ∀ k, strHasPre ("bucket_events:" ++ name) k = false →
      strHasPre "buckets" k = false →
      lookupKey (scanDeleteStar "buckets"
        (scanDeleteStar ("bucket_events:" ++ name) c)) k = lookupKey c k := by
    intro k h1 h2
    rw [lookupKey_scanDeleteStar_frame "buckets" k _ h2,
      lookupKey_scanDeleteStar_frame _ k c h1]
  refine ⟨rfl, covered, ?_, frame, ?_⟩
  · intro m cur sz hm
    refine covered _ ?_
    have base : strHasPre ("bucket_events:" ++ name) ("bucket_events:" ++ m) = true :=
      strHasPre_append_both "bucket_events:" name m hm
    have s1 := strHasPre_extend _ _ ":cursor=" base
    rw [String.append_assoc] at s1
    have s2 := strHasPre_extend _ _ (cursorText cur) s1
    have s3 := strHasPre_extend _ _ ":size=" s2
    have s4 := strHasPre_extend _ _ (toString sz) s3
    exact s4
  · intro bn eid
    exact frame _ (eventKey_not_bucket_events name bn eid) (eventKey_not_buckets bn eid)

/-- C10, witness: writing to bucket `"a"` deletes the cached event-list page of
bucket `"abc"` (name extension) while leaving an `event:a:5` entry bound as
before. -/
theorem c10_witness :
    lookupKey (scanDeleteStar "buckets" (scanDeleteStar ("bucket_events:" ++ "a")
        [(bucketEventsKey "abc" none 10, .null), (eventKey "a" 5, .bool true)]))
      (bucketEventsKey "abc" none 10) = none
    ∧ lookupKey (scanDeleteStar "buckets" (scanDeleteStar ("bucket_events:" ++ "a")
        [(bucketEventsKey "abc" none 10, .null), (eventKey "a" 5, .bool true)]))
      (eventKey "a" 5)
      = lookupKey [(bucketEventsKey "abc" none 10, .null), (eventKey "a" 5, .bool true)]
          (eventKey "a" 5) := by
  constructor
  · exact (c10_invalidation_frame "a" "t" "m" [] 1 2 3 []
      [(bucketEventsKey "abc" none 10, .null), (eventKey "a" 5, .bool true)]).2.2.1
      "abc" none 10 (by decide)
  · exact (c10_invalidation_frame "a" "t" "m" [] 1 2 3 []
      [(bucketEventsKey "abc" none 10, .null), (eventKey "a" 5, .bool true)]).2.2.2.2
      "a" 5

/-- On a reachable backend the read wrapper never changes the connection
state: it returns some keyspace. -/
theorem redis_cache_stays_conn (α : Type) (model : PyModel α) (cacheKey : String)
    (func : Except ApiError α) (c : CacheMap) :
    ∃ c', (redis_cache model cacheKey func (.conn c)).2.1 = .conn c' := by
  cases hL : lookupKey c cacheKey with
  | some v =>
    cases hV : model.validate v with
    | some x => exact ⟨c, by simp [redis_cache, hL, hV]⟩
    | none => exact ⟨c, by simp [redis_cache, hL, hV]⟩
  | none =>
    cases hF : func with
    | ok r => exact ⟨setKey c cacheKey (model.dump r), by simp [redis_cache, hL, hF]⟩
    | error e => exact ⟨c, by simp [redis_cache, hL, hF]⟩

/-! ## C8 — a write invalidates every cached listing page -/

/-- C8: after `listBuckets` (whatever it cached), a successful `createEvent` on
a fresh bucket name, then `listBuckets` again with the same cursor and size:
the write commits the new bucket, its recursive invalidation removes every
`buckets*` key, so the second listing is recomputed from the store (the
wrapped read runs exactly once) and — when the page is large enough to hold
the whole table — its items include the new bucket. -/
theorem c8_no_stale_listing (store : Store) (c0 : CacheMap) (s : Int)
    (newName title message : String) (newBucketId newEventId now : Nat)
    (hfresh : ∀ b ∈ store, b.name ≠ newName)
    (hsize : store.length + 1 ≤ clampSize s)
    (redis1 : Redis) (h1 : redis1 = (fetch_buckets none s store (.conn c0)).2.1)
    (w : Except ApiError BucketEventOut × Store × Redis)
    (hw : w = send_event_to_bucket newName title message [] newBucketId newEventId
      now store redis1) :
    w.1 = .ok ⟨bucketOut ⟨newBucketId, newName, now, now,
        [⟨newEventId, title, message, now⟩]⟩, ⟨newEventId, title, message, now⟩⟩
    ∧ w.2.1 = store ++ [⟨newBucketId, newName, now, now,
        [⟨newEventId, title, message, now⟩]⟩]
    ∧ (fetch_buckets none s w.2.1 w.2.2).1 = .ok (get_all_buckets w.2.1 none s)
    ∧ (fetch_buckets none s w.2.1 w.2.2).2.2 = 1
    ∧ bucketOut ⟨newBucketId, newName, now, now, [⟨newEventId, title, message, now⟩]⟩
        ∈ (get_all_buckets w.2.1 none s).items := by
  obtain ⟨c1, hc1⟩ := redis_cache_stays_conn BucketPage bucketPageModel
    (bucketsListKey none s) (.ok (get_all_buckets store none s)) c0
  have hc1' : (fetch_buckets none s store (.conn c0)).2.1 = .conn c1 := hc1
  subst hw h1
  rw [hc1']
  have hfind : store.find? (fun b => b.name == newName) = none :=
    List.find?_eq_none.mpr (fun x hx => by simp [hfresh x hx])
  have hany : store.any (fun r => r.name == newName) = false := by
    rw [List.any_eq_false]
    intro x hx
    simp [hfresh x hx]
  have hstep : send_event_to_bucket newName title message [] newBucketId newEventId
      now store (.conn c1)
      = (.ok ⟨bucketOut ⟨newBucketId, newName, now, now,
            [⟨newEventId, title, message, now⟩]⟩, ⟨newEventId, title, message, now⟩⟩,
         store ++ [⟨newBucketId, newName, now, now, [⟨newEventId, title, message, now⟩]⟩],
         .conn (scanDeleteStar "buckets"
           (scanDeleteStar ("bucket_events:" ++ newName) c1))) := by
    simp [send_event_to_bucket, invalidate_cache, send_event_to_bucket_handler,
      create_bucket_with_event, get_bucket_by_name, hfind, hany, bucketOut]
  rw [hstep]
  have hkey : strHasPre "buckets" (bucketsListKey none s) = true := by
    have k0 : strHasPre "buckets" ("buckets:cursor=" ++ cursorText none ++ ":size=")
        = true := by decide
    exact strHasPre_extend _ _ (toString s) k0
  have hnone : lookupKey (scanDeleteStar "buckets"
      (scanDeleteStar ("bucket_events:" ++ newName) c1)) (bucketsListKey none s)
      = none :=
    lookupKey_scanDeleteStar_covered "buckets" _ _ hkey
  have hb : BucketRec.mk newBucketId newName now now [⟨newEventId, title, message, now⟩]
      ∈ orderedBuckets (store ++ [⟨newBucketId, newName, now, now,
        [⟨newEventId, title, message, now⟩]⟩]) := by
    simp [orderedBuckets]
  have hlen : (orderedBuckets (store ++ [⟨newBucketId, newName, now, now,
      [⟨newEventId, title, message, now⟩]⟩])).length ≤ clampSize s := by
    rw [show (orderedBuckets (store ++ [⟨newBucketId, newName, now, now,
        [⟨newEventId, title, message, now⟩]⟩])).length
        = (store ++ [(⟨newBucketId, newName, now, now,
          [⟨newEventId, title, message, now⟩]⟩ : BucketRec)]).length
      from (List.perm_insertionSort bucketOrder _).length_eq]
    simpa using hsize
  have htake : (orderedBuckets (store ++ [⟨newBucketId, newName, now, now,
      [⟨newEventId, title, message, now⟩]⟩])).take (clampSize s)
      = orderedBuckets (store ++ [⟨newBucketId, newName, now, now,
        [⟨newEventId, title, message, now⟩]⟩]) :=
    List.take_of_length_le hlen
  refine ⟨rfl, rfl, ?_, ?_, ?_⟩
  · simp [fetch_buckets, redis_cache, hnone]
  · simp [fetch_buckets, redis_cache, hnone]
  · simp only [get_all_buckets, keysetPage, htake]
    exact List.mem_map_of_mem bucketOut hb

/-- C8, witness: starting from the empty store and an empty cache, page size
10: the first listing caches an empty page, the write creates bucket `"b1"`,
and the second listing recomputes and lists `"b1"`. -/
theorem c8_witness :
    ((send_event_to_bucket "b1" "t" "m" [] 1 2 3 []
        (fetch_buckets none 10 [] (.conn [])).2.1).1
      = .ok ⟨bucketOut ⟨1, "b1", 3, 3, [⟨2, "t", "m", 3⟩]⟩, ⟨2, "t", "m", 3⟩⟩)
    ∧ bucketOut ⟨1, "b1", 3, 3, [⟨2, "t", "m", 3⟩]⟩
        ∈ (get_all_buckets (send_event_to_bucket "b1" "t" "m" [] 1 2 3 []
            (fetch_buckets none 10 [] (.conn [])).2.1).2.1 none 10).items := by
  have h := c8_no_stale_listing [] [] 10 "b1" "t" "m" 1 2 3
    (by intro b hb; cases hb) (by decide)
    ((fetch_buckets none 10 [] (.conn [])).2.1) rfl
    (send_event_to_bucket "b1" "t" "m" [] 1 2 3 []
      ((fetch_buckets none 10 [] (.conn [])).2.1)) rfl
  exact ⟨h.1, h.2.2.2.2⟩

/-! ## Pagination lemmas -/

/-- The clamped page size is at least one. -/
theorem clampSize_pos (s : Int) : 1 ≤ clampSize s := by
  unfold clampSize
  split
  · exact Nat.le_refl 1
  · split
    · omega
    · omega

/-- `remainingOf` at an absent cursor. -/
theorem remainingOf_none (α : Type) (key : α → Nat) (rows : List α) :
    remainingOf key rows none = rows := rfl

/-- `remainingOf` at a present cursor. -/
theorem remainingOf_some (α : Type) (key : α → Nat) (rows : List α) (k : Nat) :
    remainingOf key rows (some k) = rows.filter (fun r => decide (k < key r)) := rfl

/-- One page, written through `remainingOf`. -/
theorem keysetPage_eq (α : Type) (key : α → Nat) (rows : List α)
    (c : Option Nat) (s : Int) :
    keysetPage key rows c s
      = ((remainingOf key rows c).take (clampSize s),
         if clampSize s < (remainingOf key rows c).length
           then ((remainingOf key rows c)[clampSize s - 1]?).map key else none) := by
  cases c <;> rfl

/-- In a strictly sorted list, keeping the rows whose key lies strictly after
the key of the element at index `i` is exactly dropping the first `i + 1`
rows — the heart of keyset pagination, and false without strictness. -/
theorem sorted_filter_gt_eq_drop (α : Type) (key : α → Nat) :
    ∀ (l : List α), List.Sorted (fun a b => key a < key b) l →
      ∀ (i : Nat) (h : i < l.length),
        l.filter (fun r => decide (key l[i] < key r)) = l.drop (i + 1) := by
  intro l
  induction l with
  | nil =>
    intro _ i h
    exact absurd h (by simp)
  | cons a t ih =>
    intro hs i h
    obtain ⟨ha, ht⟩ := List.sorted_cons.mp hs
    cases i with
    | zero =>
      have e0 : (a :: t)[0] = a := rfl
      rw [e0, List.filter_cons, if_neg (by simp)]
      rw [List.filter_eq_self.mpr (fun x hx => by simp [ha x hx])]
      rfl
    | succ i =>
      have h' : i < t.length := by simpa using h
      have e1 : (a :: t)[i + 1] = t[i] := by simp
      rw [e1, List.filter_cons]
      have hka : key a < key t[i] := ha _ (List.getElem_mem h')
      rw [if_neg (by simp; omega)]
      rw [ih ht i h']
      rfl

/-- Raising the cursor bound refines the filter: filtering past `kp` is the
same done on the full ordering or on the rows already past `k0 < kp`. -/
theorem filter_sub_filter (α : Type) (key : α → Nat) (rows : List α)
    (k0 kp : Nat) (h : k0 < kp) :
    rows.filter (fun r => decide (kp < key r))
      = (rows.filter (fun r => decide (k0 < key r))).filter
          (fun r => decide (kp < key r)) := by
  rw [List.filter_filter]
  refine List.filter_congr ?_
  intro x hx
  by_cases hq : kp < key x
  · simp [hq, Nat.lt_trans h hq]
  · simp [hq]

/-- One cursor step: re-querying the full strictly-sorted ordering with the
key of the row at index `i` of the current remainder yields exactly that
remainder with its first `i + 1` rows dropped. -/
theorem remaining_step (α : Type) (key : α → Nat) (rows R : List α)
    (hs : List.Sorted (fun a b => key a < key b) rows)
    (c : Option Nat) (hR : remainingOf key rows c = R)
    (hsR : List.Sorted (fun a b => key a < key b) R)
    (i : Nat) (hidx : i < R.length) :
    remainingOf key rows (some (key R[i])) = R.drop (i + 1) := by
  cases c with
  | none =>
    rw [remainingOf_none] at hR
    subst hR
    rw [remainingOf_some]
    exact sorted_filter_gt_eq_drop α key rows hs i hidx
  | some k0 =>
    rw [remainingOf_some] at hR
    have hmem : R[i] ∈ R := List.getElem_mem hidx
    have hmem' : R[i] ∈ rows.filter (fun r => decide (k0 < key r)) := by
      rw [hR]
      exact hmem
    have hdec := List.of_mem_filter hmem'
    have hk0 : k0 < key R[i] := of_decide_eq_true hdec
    rw [remainingOf_some, filter_sub_filter α key rows k0 (key R[i]) hk0, hR]
    exact sorted_filter_gt_eq_drop α key R hsR i hidx

/-- Exhausting the paginator from any cursor returns exactly the rows after
that cursor, provided the ordering's sort keys are strictly increasing. -/
theorem pagesFrom_aux (α : Type) (key : α → Nat) (rows : List α)
    (hs : List.Sorted (fun a b => key a < key b) rows) (s : Int) :
    ∀ (fuel : Nat) (c : Option Nat),
      (remainingOf key rows c).length ≤ fuel →
      pagesFrom key rows c s fuel = remainingOf key rows c := by
  intro fuel
  induction fuel with
  | zero =>
    intro c hc
    have hnil : remainingOf key rows c = [] :=
      List.eq_nil_of_length_eq_zero (Nat.le_antisymm hc (Nat.zero_le _))
    rw [hnil]
    rfl
  | succ fuel ih =>
    intro c hc
    have heff : 1 ≤ clampSize s := clampSize_pos s
    have hstrict : List.Sorted (fun a b => key a < key b) (remainingOf key rows c) := by
      cases c with
      | none => exact hs
      | some k => exact hs.filter _
    by_cases hlen : clampSize s < (remainingOf key rows c).length
    · have hidx : clampSize s - 1 < (remainingOf key rows c).length := by omega
      have hnext : keysetPage key rows c s
          = ((remainingOf key rows c).take (clampSize s),
             some (key (remainingOf key rows c)[clampSize s - 1])) := by
        rw [keysetPage_eq, if_pos hlen, List.getElem?_eq_getElem hidx]
        rfl
      have hdrop := remaining_step α key rows (remainingOf key rows c) hs c rfl
        hstrict (clampSize s - 1) hidx
      rw [show clampSize s - 1 + 1 = clampSize s from by omega] at hdrop
      show (match keysetPage key rows c s with
        | (items, none) => items
        | (items, some k) => items ++ pagesFrom key rows (some k) s fuel)
        = remainingOf key rows c
      rw [hnext]
      show (remainingOf key rows c).take (clampSize s)
          ++ pagesFrom key rows
              (some (key (remainingOf key rows c)[clampSize s - 1])) s fuel
        = remainingOf key rows c
      rw [ih _ (by rw [hdrop, List.length_drop]; omega)]
      rw [hdrop]
      exact List.take_append_drop _ _
    · have hle : (remainingOf key rows c).length ≤ clampSize s := by omega
      have hnext : keysetPage key rows c s
          = ((remainingOf key rows c).take (clampSize s), none) := by
        rw [keysetPage_eq, if_neg hlen]
      show (match keysetPage key rows c s with
        | (items, none) => items
        | (items, some k) => items ++ pagesFrom key rows (some k) s fuel)
        = remainingOf key rows c
      rw [hnext]
      show (remainingOf key rows c).take (clampSize s) = remainingOf key rows c
      exact List.take_of_length_le hle

/-! ## C4 — pagination stability -/

/-- C4, counterexample: the claim "ties on the primary sort column are broken
deterministically by the unique id, so concatenating all pages yields every
item exactly once even when two rows share a timestamp" is false: the queries
order by the timestamp alone, so with two buckets sharing `updated_at = 5` and
page size 1, the first page ends at key 5 and the next page asks for keys
strictly beyond 5 — the second bucket is skipped and never returned. -/
theorem c4_counterexample :
    allPagesBuckets [⟨1, "a", 0, 5, []⟩, ⟨2, "b", 0, 5, []⟩] 1 = [⟨1, "a", 0, 5, []⟩]
    ∧ (⟨2, "b", 0, 5, []⟩ : BucketRec) ∈ ([⟨1, "a", 0, 5, []⟩, ⟨2, "b", 0, 5, []⟩] : Store)
    ∧ (⟨2, "b", 0, 5, []⟩ : BucketRec)
        ∉ allPagesBuckets [⟨1, "a", 0, 5, []⟩, ⟨2, "b", 0, 5, []⟩] 1 := by
  exact ⟨rfl, by decide, by decide⟩

/-- C4, amended: the traversal is exhaustive and duplicate-free only when the
sort keys are pairwise distinct: if no two buckets share an `updated_at` (resp.
no two events of the bucket share a `created_at`), concatenating all pages
from `cursor=None` to exhaustion yields exactly the ordered table — a
permutation of the underlying set, every item exactly once — for every
requested page size. With a shared timestamp across a page boundary this
fails (see the counterexample); the repo's queries have no id tie-break. -/
theorem c4_amended (store : Store) (evs : List EventRec) (s : Int)
    (hb : store.Pairwise (fun a b => a.updatedAt ≠ b.updatedAt))
    (he : evs.Pairwise (fun a b => a.createdAt ≠ b.createdAt)) :
    allPagesBuckets store s = orderedBuckets store
    ∧ (orderedBuckets store).Perm store
    ∧ allPagesEvents evs s = orderedEvents evs
    ∧ (orderedEvents evs).Perm evs := by
  have hpermb : (orderedBuckets store).Perm store :=
    List.perm_insertionSort bucketOrder store
  have hperme : (orderedEvents evs).Perm evs :=
    List.perm_insertionSort eventOrder evs
  have hsortb : List.Sorted bucketOrder (orderedBuckets store) := by
    haveI : IsTotal BucketRec bucketOrder :=
      ⟨fun a b => Nat.le_total a.updatedAt b.updatedAt⟩
    haveI : IsTrans BucketRec bucketOrder :=
      ⟨fun a b c hab hbc => Nat.le_trans hab hbc⟩
    exact List.sorted_insertionSort bucketOrder store
  have hsorte : List.Sorted eventOrder (orderedEvents evs) := by
    haveI : IsTotal EventRec eventOrder :=
      ⟨fun a b => Nat.le_total a.createdAt b.createdAt⟩
    haveI : IsTrans EventRec eventOrder :=
      ⟨fun a b c hab hbc => Nat.le_trans hab hbc⟩
    exact List.sorted_insertionSort eventOrder evs
  have hneb : (orderedBuckets store).Pairwise (fun a b => a.updatedAt ≠ b.updatedAt) :=
    (hpermb.pairwise_iff fun hxy e => hxy e.symm).mpr hb
  have hnee : (orderedEvents evs).Pairwise (fun a b => a.createdAt ≠ b.createdAt) :=
    (hperme.pairwise_iff fun hxy e => hxy e.symm).mpr he
  have hstrictb : List.Sorted
      (fun a b => (fun x : BucketRec => x.updatedAt) a
        < (fun x : BucketRec => x.updatedAt) b) (orderedBuckets store) := by
    refine (hsortb.and hneb).imp ?_
    intro a b hab
    exact Nat.lt_of_le_of_ne hab.1 hab.2
  have hstricte : List.Sorted
      (fun a b => (fun x : EventRec => x.createdAt) a
        < (fun x : EventRec => x.createdAt) b) (orderedEvents evs) := by
    refine (hsorte.and hnee).imp ?_
    intro a b hab
    exact Nat.lt_of_le_of_ne hab.1 hab.2
  refine ⟨?_, hpermb, ?_, hperme⟩
  · exact pagesFrom_aux BucketRec (fun b => b.updatedAt) (orderedBuckets store)
      hstrictb s (orderedBuckets store).length none (Nat.le_refl _)
  · exact pagesFrom_aux EventRec (fun e => e.createdAt) (orderedEvents evs)
      hstricte s (orderedEvents evs).length none (Nat.le_refl _)

/-- C4, witness for the amended theorem: two buckets with distinct timestamps
traversed at page size 1, one event at page size 1. -/
theorem c4_witness :
    allPagesBuckets [⟨1, "x", 0, 1, []⟩, ⟨2, "y", 0, 2, []⟩] 1
      = orderedBuckets [⟨1, "x", 0, 1, []⟩, ⟨2, "y", 0, 2, []⟩]
    ∧ (orderedBuckets [⟨1, "x", 0, 1, []⟩, ⟨2, "y", 0, 2, []⟩]).Perm
        [⟨1, "x", 0, 1, []⟩, ⟨2, "y", 0, 2, []⟩]
    ∧ allPagesEvents [⟨3, "t", "m", 7⟩] 1 = orderedEvents [⟨3, "t", "m", 7⟩]
    ∧ (orderedEvents [⟨3, "t", "m", 7⟩]).Perm [⟨3, "t", "m", 7⟩] :=
  c4_amended [⟨1, "x", 0, 1, []⟩, ⟨2, "y", 0, 2, []⟩] [⟨3, "t", "m", 7⟩] 1
    (by decide) (by decide)

end InfraKit
